import Mathlib

/-!
Shallow embedding of `src/ipc/ipc_build.py` (the image-pool compiler) and
proofs about it.  Filesystem and process effects are abstracted into
explicit environment values (directory listings, mkdir/converter outcomes);
everything else is translated statement by statement from the Python source.
-/

/-! ## Python primitive layer -/

deriving instance DecidableEq for Except

/-- Exceptions the embedded code can raise (`IndexError` from list indexing,
`ValueError` from `int(...)`). -/
inductive PyError where
  | indexError
  | valueError
deriving DecidableEq, Repr

/-- Whitespace characters stripped by Python's `int(str)` conversion
(space, tab, newline, carriage return, vertical tab, form feed). -/
def pySpace (c : Char) : Bool :=
  c == ' ' || c.toNat == 9 || c.toNat == 10 || c.toNat == 13 || c.toNat == 11 || c.toNat == 12

/-- Strip leading and trailing Python whitespace from a character list. -/
def stripSpaces (l : List Char) : List Char :=
  ((l.dropWhile pySpace).reverse.dropWhile pySpace).reverse

/-- Value of a hexadecimal digit character, `none` for non-digits. -/
def hexVal (c : Char) : Option Nat :=
  if c.isDigit then some (c.toNat - 48)
  else if 97 ≤ c.toNat && c.toNat ≤ 102 then some (c.toNat - 87)
  else if 65 ≤ c.toNat && c.toNat ≤ 70 then some (c.toNat - 55)
  else none

/-- Value of a decimal digit character, `none` for non-digits. -/
def decVal (c : Char) : Option Nat :=
  if c.isDigit then some (c.toNat - 48) else none

/-- Tail of a Python integer-literal digit run: digits of base `base`
with single underscores allowed between digits.  `acc` is the value read
so far; `none` on any malformed continuation. -/
def digitsRun (dv : Char → Option Nat) (base : Nat) : List Char → Nat → Option Nat
  | [], acc => some acc
  | c :: rest, acc =>
    if c = '_' then
      match rest with
      | [] => none
      | d :: rest2 =>
        match dv d with
        | some v => digitsRun dv base rest2 (acc * base + v)
        | none => none
    else
      match dv c with
      | some v => digitsRun dv base rest (acc * base + v)
      | none => none

/-- Digit run of a Python integer literal: nonempty, starts with a digit,
single underscores allowed between digits. -/
def digitsVal (dv : Char → Option Nat) (base : Nat) : List Char → Option Nat
  | [] => none
  | c :: rest =>
    match dv c with
    | some v => digitsRun dv base rest v
    | none => none

/-- Model of Python's `int(s, base)` for the two uses in the source
(`int(tok, 16)` and `int(tok)`): strip surrounding whitespace, optional
sign, optional `0x`/`0X` prefix when `pre = some x`, then a digit run;
raises `ValueError` otherwise. -/
def pyIntCore (dv : Char → Option Nat) (base : Nat) (pre : Option Char) (s : List Char) :
    Except PyError Int :=
  let t := stripSpaces s
  let signed : Int × List Char :=
    match t with
    | [] => (1, [])
    | c :: r => if c = '-' then (-1, r) else if c = '+' then (1, r) else (1, t)
  let body : List Char :=
    match pre, signed.2 with
    | some p, c0 :: c :: r =>
      if c0 == '0' && (c == p || c.toNat == p.toNat - 32) then
        match r with
        | '_' :: r2 => r2
        | _ => r
      else signed.2
    | _, _ => signed.2
  match digitsVal dv base body with
  | some v => .ok (signed.1 * (v : Int))
  | none => .error .valueError

/-- Model of `int(s, 16)` (hex token decoding in the source). -/
def pyIntHex (s : List Char) : Except PyError Int :=
  pyIntCore hexVal 16 (some 'x') s

/-- Model of `int(s)` (decimal category-folder number in the source). -/
def pyIntDec (s : List Char) : Except PyError Int :=
  pyIntCore decVal 10 none s

/-- Model of Python's `str.split(sep)` for a one-character separator:
always returns a nonempty list, keeps empty fields. -/
def splitChar (sep : Char) : List Char → List (List Char)
  | [] => [[]]
  | c :: rest =>
    let r := splitChar sep rest
    if c = sep then [] :: r
    else
      match r with
      | [] => [[c]]
      | w :: ws => (c :: w) :: ws

/-- Model of Python's `str.split(sep, 1)` restricted to what the source
uses of its result: the pair around the first occurrence of `sep`, or
`none` when `sep` does not occur (in which case `_split[1]` would raise). -/
def splitFirstAt (sep : List Char) : List Char → Option (List Char × List Char)
  | [] => none
  | c :: rest =>
    if sep.isPrefixOf (c :: rest) then some ([], (c :: rest).drop sep.length)
    else
      match splitFirstAt sep rest with
      | none => none
      | some (a, b) => some (c :: a, b)

/-! ## Constants from the source -/

/-- Constant `IMAGE_FILENAME_MAGIC_CONSTANT` from the source. -/
def imageFilenameMagic : List Char := "$$KR_".toList

/-- Constant `IMAGE_SUPPORTED_FORMATS` from the source. -/
def imageSupportedFormats : List String :=
  [".jpg", ".jpeg", ".png", ".bmp", ".webp", ".avif", ".tif", ".tiff", ".tga"]

/-- Constant `IMAGE_OUTPUT_FORMAT` from the source. -/
def imageOutputFormat : String := "webp"

/-! ## Data model (manifest under construction) -/

/-- One record of `manifest["pool"]["categories"]`. -/
structure CategoryMeta where
  name : String
  index : Nat
  length : Nat
deriving DecidableEq, Repr

/-- The flat accumulating parts of the manifest: the `urls` and `attributes`
lists, the `categories` records, and the running `cumulative_length`. -/
structure PoolState where
  urls : List String
  attributes : List Int
  categories : List CategoryMeta
  cumulative : Nat
deriving DecidableEq, Repr

/-- The `pool` object of the final manifest. -/
structure Pool where
  base_url : String
  categories : List CategoryMeta
  total_length : Nat
  urls : List String
  attributes : List Int
deriving DecidableEq, Repr

/-- The manifest object written to `meta.json`. -/
structure Manifest where
  version : Int
  pool : Pool
deriving DecidableEq, Repr

/-- Result of a completed run: the manifest written to disk and the `fail`
flag that selects the final summary message. -/
structure RunOutput where
  manifest : Manifest
  failFlag : Bool
deriving DecidableEq, Repr

/-! ## Environment: filesystem and converter effects -/

/-- One entry of `os.listdir` on a category folder, together with the
outcomes of the two per-file external effects the code performs on it:
creating the output shard directory (`os.makedirs`) and running the
converter (`subprocess.run(...).returncode == 0`). -/
structure DirEntry where
  name : String
  isFile : Bool
  mkdirOk : Bool
  convertOk : Bool
deriving DecidableEq, Repr

/-- One entry of `os.listdir` on the source root: its name, whether it is a
directory, the outcome of creating its output category folder, and its own
directory listing. -/
structure CatFolder where
  name : String
  isDir : Bool
  mkdirOk : Bool
  entries : List DirEntry
deriving DecidableEq, Repr

/-- Per-image effect outcomes, extracted from a `DirEntry`. -/
structure ItemEnv where
  mkdirOk : Bool
  convertOk : Bool
deriving DecidableEq, Repr

/-! ## Path and URL helpers -/

/-- Model of `os.path.join(a, b)` on POSIX for a relative nonempty `b` and
an `a` without trailing slash (the only shapes the source builds). -/
def pathJoin (a b : String) : String := a ++ "/" ++ b

/-- Model of `os.path.relpath(p, start)` for a `p` that lies strictly below
`start` (the only shape the source passes: `p` is built by `os.path.join`
from `start`): drops `start` plus the separator. -/
def relpathFrom (p start : String) : String :=
  ((p.toList).drop (start.toList.length + 1)).asString

/-- Model of `urllib.parse.urljoin(base, rel)` for a `base` ending in a
slash and a path-relative reference without scheme, authority, leading
slash or dot segments (the shapes produced by the source: default base
`http://localhost/` and `rel` of the form `hh/ss/name.webp`). -/
def urljoinModel (base rel : String) : String := base ++ rel

/-- Hexadecimal digit character (lowercase), as produced by `%x` formatting. -/
def hexDigitChar (n : Nat) : Char :=
  if n < 10 then Char.ofNat (48 + n) else Char.ofNat (87 + n)

/-- Hexadecimal digits of `n`, most significant first; fueled helper. -/
def natHexAux : Nat → Nat → List Char
  | 0, _ => []
  | fuel + 1, n => if n = 0 then [] else natHexAux fuel (n / 16) ++ [hexDigitChar (n % 16)]

/-- Hexadecimal rendering of a natural number, lowercase, no padding. -/
def natHex (n : Nat) : List Char :=
  if n = 0 then ['0'] else natHexAux (n + 1) n

/-- Model of the f-string `f"{category_number:02x}"` for the reachable
values (a category number parsed from a two-digit decimal folder prefix is
between 0 and 99): two-digit zero-padded lowercase hexadecimal. -/
def formatHex02 (n : Int) : String :=
  let ds := natHex n.toNat
  (if ds.length < 2 then '0' :: ds else ds).asString

/-! ## Filename Codec and per-image processing (inner loop body) -/

/-- Reasons for the per-item `continue` branches of the inner loop, in
source order. -/
inductive SkipReason where
  | emptyTokens
  | catMismatch
  | idTooShort
  | idNotAlnum
  | attribRange
  | mkdirFail
  | convertFail
deriving DecidableEq, Repr

/-- Outcome of the inner loop body on one candidate file: an uncaught
exception (aborting the whole run), a reported skip (`continue`), or an
appended entry (`url`, `attribute`). -/
inductive ItemOutcome where
  | crash (e : PyError)
  | skip (r : SkipReason)
  | accept (url : String) (attrib : Int)
deriving DecidableEq, Repr

/-- Decode of `int(tok, 16)` as the guard on line 110 sees it: `int`
either raises or returns an integer, so a successful decode is always
`some`; the `None` possibility exists only in the type the guard tests. -/
def hexTokenOpt (t : List Char) : Except PyError (Option Int) :=
  match pyIntHex t with
  | .error e => .error e
  | .ok v => .ok (some v)

/-- Model of `re.fullmatch(r'[a-zA-Z0-9]+', s)`: nonempty and every
character an ASCII letter or digit. -/
def fullmatchAlnum (l : List Char) : Bool :=
  !l.isEmpty && l.all (fun c => c.isAlphanum)

/-- Tokenization of a candidate filename, line 108 of the source:
`src_image.split('.')[0].split('_')`. -/
def imgTokens (f : String) : List (List Char) :=
  splitChar '_' ((splitChar '.' f.toList).headD [])

/-- Body of the inner loop of `main` (lines 107-193 of the source) on one
candidate filename: tokenize (`split('.')[0].split('_')`), decode tokens
(`int(_,16)` may raise), run the five sanity checks in source order,
derive the output location (the code's locals `_out_subfolder`,
`_out_file`, `out_image_dir` and `out_image_path` are inlined into the
final expression), create the shard directory, invoke the converter, and
on success produce the manifest entry. -/
def processImage (env : ItemEnv) (baseUrl outputPath : String) (categoryNumber : Int)
    (outCategoryPath : String) (srcImage : String) : ItemOutcome :=
  match (imgTokens srcImage).get? 1 with
  | none => .crash .indexError
  | some t1 =>
    match hexTokenOpt t1 with
    | .error e => .crash e
    | .ok imgCatOpt =>
      match (imgTokens srcImage).get? 2 with
      | none => .crash .indexError
      | some t2 =>
        match (imgTokens srcImage).get? 3 with
        | none => .crash .indexError
        | some t3 =>
          match hexTokenOpt t3 with
          | .error e => .crash e
          | .ok imgAttribOpt =>
            match imgCatOpt, (some t2 : Option (List Char)), imgAttribOpt with
            | some imgCat, some imgId, some imgAttrib =>
              if imgCat ≠ categoryNumber then .skip .catMismatch
              else if imgId.length < 4 then .skip .idTooShort
              else if !fullmatchAlnum imgId then .skip .idNotAlnum
              else if !((0 : Int) ≤ imgAttrib && imgAttrib ≤ 255) then .skip .attribRange
              else if !env.mkdirOk then .skip .mkdirFail
              else if !env.convertOk then .skip .convertFail
              else
                .accept
                  (urljoinModel baseUrl
                    (relpathFrom
                      (pathJoin (pathJoin outCategoryPath (imgId.take 2).asString)
                        ((imgId.drop 2).asString ++ "." ++ imageOutputFormat))
                      outputPath))
                  imgAttrib
            | _, _, _ => .skip .emptyTokens

/-! ## Category Processor (inner loop over candidate files) -/

/-- Filter on `os.listdir(src_category_path)` from lines 97-102: magic
prefix, supported extension of the lowercased name (ASCII case folding,
faithful for the ASCII extension tails being compared), and `isfile`. -/
def isCandidateFile (e : DirEntry) : Bool :=
  imageFilenameMagic.isPrefixOf e.name.toList &&
  imageSupportedFormats.any (fun x => x.toList.isSuffixOf (e.name.toList.map Char.toLower)) &&
  e.isFile

/-- Inner loop of `main` over the candidate files of one category, with the
running `enumerate` index `j`: stops (`break`) when `j` reaches 65536,
propagates uncaught exceptions, drops skipped files, and collects accepted
`(url, attribute)` entries in order.  The boolean records whether the
65536-image cap was reported. -/
def runImages (baseUrl outputPath : String) (categoryNumber : Int) (outCategoryPath : String) :
    Nat → List DirEntry → Except PyError (List (String × Int) × Bool)
  | _, [] => .ok ([], false)
  | j, e :: rest =>
    if 65536 ≤ j then .ok ([], true)
    else
      match processImage ⟨e.mkdirOk, e.convertOk⟩ baseUrl outputPath categoryNumber
          outCategoryPath e.name with
      | .crash err => .error err
      | .skip _ => runImages baseUrl outputPath categoryNumber outCategoryPath (j + 1) rest
      | .accept url attrib =>
        match runImages baseUrl outputPath categoryNumber outCategoryPath (j + 1) rest with
        | .error err => .error err
        | .ok (entries, cap) => .ok ((url, attrib) :: entries, cap)

/-! ## Pool Compiler driver -/

/-- Model of `re.match(r'^\d{2}\s*-\s*\w+', folder)` (ASCII reading of the
character classes, faithful for the folder names the convention uses):
two digits, optional spaces, a dash, optional spaces, one word character;
anything may follow. -/
def matchesCategoryPattern (s : String) : Bool :=
  match s.toList with
  | d1 :: d2 :: rest =>
    d1.isDigit && d2.isDigit &&
      (match rest.dropWhile pySpace with
       | c :: rest2 =>
         c == '-' &&
           (match rest2.dropWhile pySpace with
            | w :: _ => w.isAlphanum || w == '_'
            | [] => false)
       | [] => false)
  | _ => false

/-- Lexicographic comparison of names by code point, as Python's string
`<=` used by `list.sort()`. -/
def nameLe (a b : List Char) : Bool :=
  match a, b with
  | [], _ => true
  | _ :: _, [] => false
  | x :: xs, y :: ys =>
    if x.toNat < y.toNat then true
    else if y.toNat < x.toNat then false
    else nameLe xs ys

/-- Insert a folder into a name-sorted list, keeping earlier elements
first on ties. -/
def insertByName (c : CatFolder) : List CatFolder → List CatFolder
  | [] => [c]
  | d :: ds => if nameLe c.name.toList d.name.toList then c :: d :: ds else d :: insertByName c ds

/-- Model of `category_folders.sort()`: a stable sort by name; since a
directory listing never repeats a name, this equals any sort Python's
stable sort would produce. -/
def sortByName : List CatFolder → List CatFolder
  | [] => []
  | c :: cs => insertByName c (sortByName cs)

/-- Lines 58-63 of the source: keep the root entries that are directories
and match the category-folder regex, then sort by name. -/
def discoverCategories (root : List CatFolder) : List CatFolder :=
  sortByName (root.filter (fun c => c.isDir && matchesCategoryPattern c.name))

/-- Model of Python's `str.split(sep, 1)` as the source uses its result:
the first field — the whole string when `sep` does not occur — together
with the remainder after the first occurrence of `sep` when there is one
(`_split[1]`, whose access raises `IndexError` otherwise). -/
def pySplitOnce (sep s : List Char) : List Char × Option (List Char) :=
  match splitFirstAt sep s with
  | none => (s, none)
  | some (a, b) => (a, some b)

/-- Lines 73-209 of the source, one iteration of the outer loop: split the
folder name on `' - '` (`_split`, line 73), decode the decimal category
number from `_split[0]` (line 74) — for a name without the separator
`_split[0]` is the whole name, so `int` may raise `ValueError` here first
— then read the display name from `_split[1]` (line 75, raising
`IndexError` when the separator was absent and the number decoded anyway),
attempt to create the output category folder (on failure `continue`,
touching nothing), filter the candidate files, run the inner loop, then
append the entries and the `CategoryMeta` record and advance
`cumulative_length`. -/
def processCategory (baseUrl outputPath : String) (cat : CatFolder) (st : PoolState) :
    Except PyError PoolState :=
  match pyIntDec (pySplitOnce (" - ".toList) cat.name.toList).1 with
  | .error e => .error e
  | .ok categoryNumber =>
    match (pySplitOnce (" - ".toList) cat.name.toList).2 with
    | none => .error .indexError
    | some nameStr =>
      let outCategoryPath := pathJoin outputPath (formatHex02 categoryNumber)
      if !cat.mkdirOk then .ok st
      else
        match runImages baseUrl outputPath categoryNumber outCategoryPath 0
            (cat.entries.filter isCandidateFile) with
        | .error e => .error e
        | .ok (entries, _capHit) =>
          .ok
            { urls := st.urls ++ entries.map Prod.fst
              attributes := st.attributes ++ entries.map Prod.snd
              categories := st.categories ++ [⟨nameStr.asString, st.cumulative, entries.length⟩]
              cumulative := st.cumulative + entries.length }

/-- Outer loop of `main` over the sorted category folders. -/
def runCategories (baseUrl outputPath : String) :
    PoolState → List CatFolder → Except PyError PoolState
  | st, [] => .ok st
  | st, c :: rest =>
    match processCategory baseUrl outputPath c st with
    | .error e => .error e
    | .ok st2 => runCategories baseUrl outputPath st2 rest

/-- The manifest object assembled at the end of `main` from the final
state (`total_length` set from `cumulative_length`). -/
def assembleManifest (baseUrl : String) (version : Int) (st : PoolState) : Manifest :=
  ⟨version, ⟨baseUrl, st.categories, st.cumulative, st.urls, st.attributes⟩⟩

/-- The two final sanity checks of `main` (lines 214-223): the `fail` flag
is set when `len(urls) != total_length` or `len(urls) != len(attributes)`. -/
def manifestChecksFail (st : PoolState) : Bool :=
  (st.urls.length != st.cumulative) || (st.urls.length != st.attributes.length)

/-- Lines 56-232 of `main` after argument parsing: discover and sort the
category folders, run the outer loop from the empty manifest, assemble the
manifest, compute the `fail` flag, and write the manifest (a completed run
always returns it, whatever the flag).  An uncaught exception aborts the
run with no manifest written. -/
def compilePool (baseUrl outputPath : String) (version : Int) (root : List CatFolder) :
    Except PyError RunOutput :=
  match runCategories baseUrl outputPath ⟨[], [], [], 0⟩ (discoverCategories root) with
  | .error e => .error e
  | .ok st => .ok ⟨assembleManifest baseUrl version st, manifestChecksFail st⟩

/-! ## Claim theorems -/

/-- Claim C2 (code bug evidence): a candidate filename whose stem yields
fewer than four underscore tokens, or a non-hexadecimal category token, is
not an item-level rejection: token decoding raises an uncaught
`IndexError`/`ValueError` and the whole run aborts with no manifest,
contrary to the skip-and-continue contract. -/
theorem c2_crash_on_bad_tokens :
    processImage ⟨true, true⟩ "http://localhost/" "out" 0 (pathJoin "out" (formatHex02 0))
      "$$KR_00.png" = .crash .indexError ∧
    processImage ⟨true, true⟩ "http://localhost/" "out" 0 (pathJoin "out" (formatHex02 0))
      "$$KR_zz_abcd_00.png" = .crash .valueError ∧
    compilePool "http://localhost/" "out" 0
      [⟨"00 - Default", true, true, [⟨"$$KR_00.png", true, true, true⟩]⟩] =
      .error .indexError := by
  refine ⟨by decide, by decide, by decide⟩

/-- Claim C6 (code bug evidence): the folder `00-Default` does not carry
the `' - '` separator of the `<2-digit-number> - <text>` convention, yet
the discovery regex `^\d{2}\s*-\s*\w+` accepts it; `split(' - ', 1)` then
leaves the whole name as `_split[0]`, and `int('00-Default')` on line 74
raises an uncaught `ValueError`, aborting the run instead of silently
ignoring the folder or processing it. -/
theorem c6_regex_split_crash :
    matchesCategoryPattern "00-Default" = true ∧
    (pySplitOnce (" - ".toList) ("00-Default".toList)).1 = "00-Default".toList ∧
    pyIntDec ("00-Default".toList) = .error .valueError ∧
    compilePool "http://localhost/" "out" 0 [⟨"00-Default", true, true, []⟩] =
      .error .valueError := by
  refine ⟨by decide, by decide, by decide, by decide⟩

/-- Claim C7 (counterexample): a stem that splits into five underscore
tokens — not exactly four — is still accepted into the manifest: the code
reads tokens 1..3 and ignores the rest, so `$$KR_00_abcd_1A_ff.png` is
accepted and contributes an entry. -/
theorem c7_counterexample :
    (splitChar '_' ((splitChar '.' ("$$KR_00_abcd_1A_ff.png".toList)).headD [])).length = 5 ∧
    processImage ⟨true, true⟩ "http://localhost/" "out" 0 (pathJoin "out" (formatHex02 0))
      "$$KR_00_abcd_1A_ff.png" = .accept "http://localhost/00/ab/cd.webp" 26 ∧
    compilePool "http://localhost/" "out" 0
      [⟨"00 - Default", true, true, [⟨"$$KR_00_abcd_1A_ff.png", true, true, true⟩]⟩] =
      .ok ⟨⟨0, ⟨"http://localhost/", [⟨"Default", 0, 1⟩], 1,
        ["http://localhost/00/ab/cd.webp"], [26]⟩⟩, false⟩ := by
  refine ⟨by decide, by decide, by decide⟩

/-- Claim C1 (counterexample): a discovered category whose output folder
creation fails contributes zero entries and is omitted from
`pool.categories` entirely, so not every zero-contribution category
appears in the list with length 0. -/
theorem c1_counterexample :
    discoverCategories [⟨"00 - Default", true, false, []⟩] =
      [⟨"00 - Default", true, false, []⟩] ∧
    compilePool "http://localhost/" "out" 0 [⟨"00 - Default", true, false, []⟩] =
      .ok ⟨⟨0, ⟨"http://localhost/", [], 0, [], []⟩⟩, false⟩ := by
  refine ⟨by decide, by decide⟩

/-! ## Helper lemmas -/

/-- Successful token decoding is always `some`: `int` either raises or
returns an integer, never `None`. -/
theorem hexTokenOpt_isSome (t : List Char) (o : Option Int) (h : hexTokenOpt t = .ok o) :
    ∃ v, o = some v := by
  unfold hexTokenOpt at h
  split at h
  · exact absurd h (by simp)
  · exact ⟨_, (Except.ok.injEq _ _).mp h.symm⟩

/-- With a failing converter, the inner loop body never produces an entry. -/
theorem processImage_no_accept_of_convert_fail (env : ItemEnv) (b o : String) (cn : Int)
    (p f : String) (hc : env.convertOk = false) (url : String) (attrib : Int) :
    processImage env b o cn p f ≠ .accept url attrib := by
  intro h
  unfold processImage at h
  repeat' split at h
  any_goals exact ItemOutcome.noConfusion h
  simp_all

/-- A skipped file leaves the inner loop exactly where it would be without
that file, apart from the `enumerate` index advancing. -/
theorem runImages_skip_step (b o : String) (cn : Int) (p : String) (e : DirEntry)
    (rest : List DirEntry) (j : Nat) (r : SkipReason) (hj : j < 65536)
    (hskip : processImage ⟨e.mkdirOk, e.convertOk⟩ b o cn p e.name = .skip r) :
    runImages b o cn p j (e :: rest) = runImages b o cn p (j + 1) rest := by
  rw [runImages, if_neg (by omega), hskip]

/-! ## Claim theorems (continued) -/

/-- Claim C10: the guard `if img_cat is None or img_id is None or
img_attrib is None` on line 110 is unreachable — `int(_,16)` and `str(_)`
either raise or return non-`None` values, so no input is ever rejected
with the `tokens are empty or invalid` reason. -/
theorem c10_none_guard_unreachable (env : ItemEnv) (baseUrl outputPath : String)
    (categoryNumber : Int) (outCategoryPath : String) (srcImage : String) :
    processImage env baseUrl outputPath categoryNumber outCategoryPath srcImage ≠
      ItemOutcome.skip .emptyTokens := by
  intro h
  unfold processImage at h
  repeat' split at h
  any_goals exact ItemOutcome.noConfusion h
  any_goals (injection h with h2; exact SkipReason.noConfusion h2)
  rename_i hcat hfall hattr
  obtain ⟨v, hv⟩ := hexTokenOpt_isSome _ _ hcat
  obtain ⟨w, hw⟩ := hexTokenOpt_isSome _ _ hattr
  exact hfall v _ w hv rfl hw

/-- Claim C5: when the converter exits non-zero on a file, no entry is
appended for it — the file can never be accepted, and the inner loop on
the remaining files continues exactly as if the file were absent, so the
`urls`/`attributes` lists and the category length are untouched. -/
theorem c5_converter_failure_no_entry (e : DirEntry) (baseUrl outputPath : String)
    (categoryNumber : Int) (outCategoryPath : String) (hc : e.convertOk = false) :
    (∀ url attrib,
      processImage ⟨e.mkdirOk, e.convertOk⟩ baseUrl outputPath categoryNumber outCategoryPath
        e.name ≠ .accept url attrib) ∧
    (∀ r j rest, j < 65536 →
      processImage ⟨e.mkdirOk, e.convertOk⟩ baseUrl outputPath categoryNumber outCategoryPath
        e.name = .skip r →
      runImages baseUrl outputPath categoryNumber outCategoryPath j (e :: rest) =
        runImages baseUrl outputPath categoryNumber outCategoryPath (j + 1) rest) := by
  constructor
  · intro url attrib
    exact processImage_no_accept_of_convert_fail _ _ _ _ _ _ hc url attrib
  · intro r j rest hj hskip
    exact runImages_skip_step _ _ _ _ _ _ _ _ hj hskip

/-- Claim C5 witness: a concrete otherwise-valid file whose conversion
fails is skipped with the converter reason and contributes nothing. -/
theorem c5_converter_failure_no_entry_witness :
    processImage ⟨true, false⟩ "http://localhost/" "out" 0 "out/00"
      "$$KR_00_abcd_1A.png" ≠ .accept "http://localhost/00/ab/cd.webp" 26 ∧
    runImages "http://localhost/" "out" 0 "out/00" 0
      [⟨"$$KR_00_abcd_1A.png", true, true, false⟩] =
      runImages "http://localhost/" "out" 0 "out/00" 1 [] := by
  refine ⟨?_, ?_⟩
  · exact
      (c5_converter_failure_no_entry ⟨"$$KR_00_abcd_1A.png", true, true, false⟩
        "http://localhost/" "out" 0 "out/00" rfl).1 _ _
  · exact
      (c5_converter_failure_no_entry ⟨"$$KR_00_abcd_1A.png", true, true, false⟩
        "http://localhost/" "out" 0 "out/00" rfl).2 .convertFail 0 [] (by omega) (by decide)


/-- The inner loop never appends more than the remaining room under the
65536-image cap. -/

theorem runImages_length_le (b o : String) (cn : Int) (p : String) :
    ∀ (files : List DirEntry) (j : Nat) (entries : List (String × Int)) (cap : Bool),
      runImages b o cn p j files = .ok (entries, cap) → entries.length ≤ 65536 - j := by
  intro files
  induction files with
  | nil =>
    intro j entries cap h
    rw [runImages] at h
    obtain ⟨h1, h2⟩ := Prod.mk.injEq _ _ _ _ ▸ (Except.ok.injEq _ _).mp h
    simp [← h1]
  | cons e rest ih =>
    intro j entries cap h
    rw [runImages] at h
    by_cases hj : 65536 ≤ j
    · rw [if_pos hj] at h
      obtain ⟨h1, h2⟩ := Prod.mk.injEq _ _ _ _ ▸ (Except.ok.injEq _ _).mp h
      simp [← h1]
    · rw [if_neg hj] at h
      cases hpi : processImage ⟨e.mkdirOk, e.convertOk⟩ b o cn p e.name with
      | crash err => rw [hpi] at h; exact absurd h (by simp)
      | skip r =>
        rw [hpi] at h
        have := ih (j + 1) entries cap h
        omega
      | accept url attrib =>
        rw [hpi] at h
        cases hrec : runImages b o cn p (j + 1) rest with
        | error err => rw [hrec] at h; exact absurd h (by simp)
        | ok pr =>
          obtain ⟨es, cap2⟩ := pr
          rw [hrec] at h
          have hih := ih (j + 1) es cap2 hrec
          obtain ⟨h1, h2⟩ := Prod.mk.injEq _ _ _ _ ▸ (Except.ok.injEq _ _).mp h
          rw [← h1]
          simp only [List.length_cons]
          omega


/-- The accepted entries of the inner loop depend only on the first
`65536 - j` candidate files: everything past the cap is never processed. -/

theorem runImages_entries_take (b o : String) (cn : Int) (p : String) :
    ∀ (files : List DirEntry) (j : Nat),
      Except.map Prod.fst (runImages b o cn p j files) =
      Except.map Prod.fst (runImages b o cn p j (files.take (65536 - j))) := by
  intro files
  induction files with
  | nil => intro j; rw [List.take_nil]
  | cons e rest ih =>
    intro j
    by_cases hj : 65536 ≤ j
    · have h0 : 65536 - j = 0 := by omega
      rw [h0, List.take_zero]
      simp only [runImages, if_pos hj, Except.map]
    · have h0 : 65536 - j = (65536 - (j + 1)) + 1 := by omega
      rw [h0, List.take_succ_cons]
      simp only [runImages, if_neg hj]
      cases hpi : processImage ⟨e.mkdirOk, e.convertOk⟩ b o cn p e.name with
      | crash err => rfl
      | skip r => exact ih (j + 1)
      | accept url attrib =>
        have hih := ih (j + 1)
        cases hx : runImages b o cn p (j + 1) rest with
        | error e1 =>
          cases hy : runImages b o cn p (j + 1) (rest.take (65536 - (j + 1))) with
          | error e2 =>
            rw [hx, hy] at hih
            simp only [Except.map] at hih
            simp only [Except.map]
            exact hih
          | ok pr2 =>
            rw [hx, hy] at hih
            simp [Except.map] at hih
        | ok pr1 =>
          obtain ⟨es1, c1⟩ := pr1
          cases hy : runImages b o cn p (j + 1) (rest.take (65536 - (j + 1))) with
          | error e2 =>
            rw [hx, hy] at hih
            simp [Except.map] at hih
          | ok pr2 =>
            obtain ⟨es2, c2⟩ := pr2
            rw [hx, hy] at hih
            simp only [Except.map] at hih
            simp only [Except.map]
            simp only [Except.ok.injEq] at hih ⊢
            simp [hih]


/-- The cap is reported exactly when candidate files remain at the moment
the `enumerate` index reaches 65536. -/

theorem runImages_cap_iff (b o : String) (cn : Int) (p : String) :
    ∀ (files : List DirEntry) (j : Nat) (entries : List (String × Int)) (cap : Bool),
      runImages b o cn p j files = .ok (entries, cap) →
      (cap = true ↔ 65536 - j < files.length) := by
  intro files
  induction files with
  | nil =>
    intro j entries cap h
    rw [runImages] at h
    obtain ⟨h1, h2⟩ := Prod.mk.injEq _ _ _ _ ▸ (Except.ok.injEq _ _).mp h
    simp [← h2]
  | cons e rest ih =>
    intro j entries cap h
    rw [runImages] at h
    by_cases hj : 65536 ≤ j
    · rw [if_pos hj] at h
      obtain ⟨h1, h2⟩ := Prod.mk.injEq _ _ _ _ ▸ (Except.ok.injEq _ _).mp h
      rw [← h2]
      simp only [List.length_cons]
      constructor
      · intro _; omega
      · intro _; trivial
    · rw [if_neg hj] at h
      cases hpi : processImage ⟨e.mkdirOk, e.convertOk⟩ b o cn p e.name with
      | crash err => rw [hpi] at h; exact absurd h (by simp)
      | skip r =>
        rw [hpi] at h
        have hih := ih (j + 1) entries cap h
        rw [hih]
        simp only [List.length_cons]
        omega
      | accept url attrib =>
        rw [hpi] at h
        cases hrec : runImages b o cn p (j + 1) rest with
        | error err => rw [hrec] at h; exact absurd h (by simp)
        | ok pr =>
          obtain ⟨es, cap2⟩ := pr
          rw [hrec] at h
          have hih := ih (j + 1) es cap2 hrec
          obtain ⟨h1, h2⟩ := Prod.mk.injEq _ _ _ _ ▸ (Except.ok.injEq _ _).mp h
          rw [← h2, hih]
          simp only [List.length_cons]
          omega
/-- Total length contributed by a list of category records. -/
def sumLengths (l : List CategoryMeta) : Nat := (l.map (fun cm => cm.length)).sum

/-- A completed category step either skipped the category wholesale
(output folder creation failed) or appended exactly its entries, one
category record carrying the prior running total as `index`, and advanced
the running total. -/
theorem processCategory_ok_shape (b o : String) (c : CatFolder) (st st2 : PoolState)
    (h : processCategory b o c st = .ok st2) :
    (c.mkdirOk = false ∧ st2 = st) ∨
    (c.mkdirOk = true ∧ ∃ (nm : String) (entries : List (String × Int)),
      entries.length ≤ 65536 ∧
      st2 = ⟨st.urls ++ entries.map Prod.fst, st.attributes ++ entries.map Prod.snd,
             st.categories ++ [⟨nm, st.cumulative, entries.length⟩],
             st.cumulative + entries.length⟩) := by
  unfold processCategory at h
  split at h
  · exact absurd h (by simp)
  · rename_i catNum hdec
    split at h
    · exact absurd h (by simp)
    · rename_i nameStr heqSplit
      by_cases hmk : c.mkdirOk
      · rw [if_neg (by simp [hmk])] at h
        split at h
        · exact absurd h (by simp)
        · rename_i pr2 entries cap heq
          refine Or.inr ⟨hmk, nameStr.asString, entries, ?_, ?_⟩
          · have := runImages_length_le b o catNum
              (pathJoin o (formatHex02 catNum)) (c.entries.filter isCandidateFile) 0 entries cap heq
            omega
          · exact ((Except.ok.injEq _ _).mp h).symm
      · rw [if_pos (by simp [Bool.not_eq_true] at hmk; simp [hmk])] at h
        exact Or.inl ⟨by simpa using hmk, ((Except.ok.injEq _ _).mp h).symm⟩

/-- Invariant of the manifest under construction: every record's `index`
is the sum of the lengths before it, the running total is the sum of all
lengths, and every record length respects the per-category cap. -/
def poolInv (st : PoolState) : Prop :=
  (∀ i (hi : i < st.categories.length),
    (st.categories.get ⟨i, hi⟩).index = sumLengths (st.categories.take i)) ∧
  st.cumulative = sumLengths st.categories ∧
  (∀ cm ∈ st.categories, cm.length ≤ 65536)

/-- Sum of lengths distributes over append. -/
theorem sumLengths_append (a b : List CategoryMeta) :
    sumLengths (a ++ b) = sumLengths a + sumLengths b := by
  simp [sumLengths]

/-- One category step preserves the manifest invariant. -/
theorem poolInv_step (st st2 : PoolState) (b o : String) (c : CatFolder)
    (h : processCategory b o c st = .ok st2) (hinv : poolInv st) : poolInv st2 := by
  rcases processCategory_ok_shape b o c st st2 h with ⟨_, rfl⟩ | ⟨_, nm, entries, hlen, rfl⟩
  · exact hinv
  · obtain ⟨hidx, hcum, hcap⟩ := hinv
    refine ⟨?_, ?_, ?_⟩
    · intro i hi
      dsimp only at hi ⊢
      rcases Nat.lt_or_ge i st.categories.length with hlt | hge
      · rw [List.get_eq_getElem, List.getElem_append_left hlt,
          List.take_append_of_le_length (Nat.le_of_lt hlt)]
        have := hidx i hlt
        rw [List.get_eq_getElem] at this
        rw [this]
      · have hieq : i = st.categories.length := by
          simp only [List.length_append, List.length_cons, List.length_nil] at hi
          omega
        subst hieq
        rw [List.get_eq_getElem, List.getElem_concat_length _ _ _ rfl, List.take_left]
        exact hcum
    · dsimp only
      rw [sumLengths_append, hcum]
      simp [sumLengths]
    · intro cm hm
      dsimp only at hm
      rcases List.mem_append.mp hm with hm1 | hm2
      · exact hcap cm hm1
      · simp at hm2
        rw [hm2]
        exact hlen

/-- The outer loop preserves the manifest invariant and appends one
category record per processed category whose output folder was created. -/
theorem runCategories_ok_inv (b o : String) :
    ∀ (cats : List CatFolder) (st st2 : PoolState),
      runCategories b o st cats = .ok st2 → poolInv st →
      poolInv st2 ∧
        st2.categories.length =
          st.categories.length + (cats.filter (fun c => c.mkdirOk)).length := by
  intro cats
  induction cats with
  | nil =>
    intro st st2 h hinv
    rw [runCategories] at h
    obtain rfl := (Except.ok.injEq _ _).mp h
    simpa using hinv
  | cons c rest ih =>
    intro st st2 h hinv
    rw [runCategories] at h
    cases hpc : processCategory b o c st with
    | error e => rw [hpc] at h; exact absurd h (by simp)
    | ok stmid =>
      rw [hpc] at h
      have hstep := poolInv_step st stmid b o c hpc hinv
      obtain ⟨hinv2, hcount⟩ := ih stmid st2 h hstep
      refine ⟨hinv2, ?_⟩
      rcases processCategory_ok_shape b o c st stmid hpc with ⟨hmf, rfl⟩ | ⟨hmt, nm, entries, hlen, rfl⟩
      · rw [hcount]
        simp [List.filter_cons, hmf]
      · rw [hcount]
        dsimp only
        simp only [List.filter_cons, hmt, List.length_append, List.length_cons,
          List.length_nil, if_true]
        simp
        omega

/-- Claim C1 (amended): in every manifest the compiler emits, the `index`
of record *i* is the sum of `length` over records *0..i-1* and the total
length is the sum of all lengths — so the ranges `[index, index+length)`
partition `[0, total_length)` in list order — and the records are exactly
one per discovered category whose output folder was created, in order: a
processed category with zero entries still appears with length 0, but a
category whose output folder creation failed is omitted entirely. -/
theorem c1_partition_amended (baseUrl outputPath : String) (version : Int)
    (root : List CatFolder) (out : RunOutput)
    (h : compilePool baseUrl outputPath version root = .ok out) :
    (∀ i (hi : i < out.manifest.pool.categories.length),
      (out.manifest.pool.categories.get ⟨i, hi⟩).index =
        sumLengths (out.manifest.pool.categories.take i)) ∧
    sumLengths out.manifest.pool.categories = out.manifest.pool.total_length ∧
    out.manifest.pool.categories.length =
      ((discoverCategories root).filter (fun c => c.mkdirOk)).length := by
  unfold compilePool at h
  cases hrc : runCategories baseUrl outputPath ⟨[], [], [], 0⟩ (discoverCategories root) with
  | error e => rw [hrc] at h; exact absurd h (by simp)
  | ok st =>
    rw [hrc] at h
    obtain rfl := (Except.ok.injEq _ _).mp h
    have hinit : poolInv ⟨[], [], [], 0⟩ := by
      refine ⟨?_, by simp [sumLengths], ?_⟩
      · intro i hi
        simp at hi
      · intro cm hm
        simp at hm
    obtain ⟨⟨hidx, hcum, _⟩, hcount⟩ :=
      runCategories_ok_inv baseUrl outputPath (discoverCategories root) ⟨[], [], [], 0⟩ st hrc hinit
    exact ⟨hidx, hcum.symm, by simpa using hcount⟩

/-- Claim C4: whenever the run reaches the final stage (the outer loop
completed), the manifest is written, with the `fail` flag exactly
reflecting the two self-checks `len(urls) == total_length` and
`len(urls) == len(attributes)`; the flag's value does not affect the
writing. -/
theorem c4_manifest_always_written (baseUrl outputPath : String) (version : Int)
    (root : List CatFolder) (st : PoolState)
    (h : runCategories baseUrl outputPath ⟨[], [], [], 0⟩ (discoverCategories root) = .ok st) :
    compilePool baseUrl outputPath version root =
      .ok ⟨assembleManifest baseUrl version st, manifestChecksFail st⟩ ∧
    manifestChecksFail st =
      ((st.urls.length != st.cumulative) || (st.urls.length != st.attributes.length)) := by
  refine ⟨?_, rfl⟩
  unfold compilePool
  rw [h]

/-- Claim C8: at most 65536 candidate files are processed per category:
the accepted entries never exceed the remaining room under the cap, the
result depends only on the first `65536 - j` candidate files, the cap is
reported exactly when files remain beyond it, and every category record
in an emitted manifest has `length ≤ 65536`. -/
theorem c8_category_cap :
    (∀ (b o : String) (cn : Int) (p : String) (files : List DirEntry) (j : Nat)
        (entries : List (String × Int)) (cap : Bool),
      runImages b o cn p j files = .ok (entries, cap) →
        entries.length ≤ 65536 - j ∧ (cap = true ↔ 65536 - j < files.length)) ∧
    (∀ (b o : String) (cn : Int) (p : String) (files : List DirEntry) (j : Nat),
      Except.map Prod.fst (runImages b o cn p j files) =
        Except.map Prod.fst (runImages b o cn p j (files.take (65536 - j)))) ∧
    (∀ (b o : String) (v : Int) (root : List CatFolder) (out : RunOutput),
      compilePool b o v root = .ok out →
        ∀ cm ∈ out.manifest.pool.categories, cm.length ≤ 65536) := by
  refine ⟨?_, ?_, ?_⟩
  · intro b o cn p files j entries cap h
    exact ⟨runImages_length_le b o cn p files j entries cap h,
      runImages_cap_iff b o cn p files j entries cap h⟩
  · intro b o cn p files j
    exact runImages_entries_take b o cn p files j
  · intro b o v root out h
    unfold compilePool at h
    cases hrc : runCategories b o ⟨[], [], [], 0⟩ (discoverCategories root) with
    | error e => rw [hrc] at h; exact absurd h (by simp)
    | ok st =>
      rw [hrc] at h
      obtain rfl := (Except.ok.injEq _ _).mp h
      have hinit : poolInv ⟨[], [], [], 0⟩ := by
        refine ⟨?_, by simp [sumLengths], ?_⟩
        · intro i hi
          simp at hi
        · intro cm hm
          simp at hm
      obtain ⟨⟨_, _, hcap⟩, _⟩ :=
        runCategories_ok_inv b o (discoverCategories root) ⟨[], [], [], 0⟩ st hrc hinit
      exact hcap

/-- A small but full concrete run used by several witnesses: two
populated categories (listed out of order), one category whose output
folder creation fails, and one ignored non-category folder. -/
def rootExample : List CatFolder :=
  [⟨"01 - Icons", true, true, [⟨"$$KR_01_wxyz_05.png", true, true, true⟩]⟩,
   ⟨"00 - Default", true, true, [⟨"$$KR_00_abcdEFGH1234_1A.png", true, true, true⟩]⟩,
   ⟨"02 - Empty", true, false, []⟩,
   ⟨"notes", false, true, []⟩]

/-- Final pool state of the `rootExample` run. -/
def stExample : PoolState :=
  ⟨["http://localhost/00/ab/cdEFGH1234.webp", "http://localhost/01/wx/yz.webp"],
   [26, 5],
   [⟨"Default", 0, 1⟩, ⟨"Icons", 1, 1⟩],
   2⟩

/-- Claim C1 witness: the partition facts instantiated on the concrete
`rootExample` run. -/
theorem c1_partition_amended_witness :
    sumLengths stExample.categories = 2 ∧
    stExample.categories.length =
      ((discoverCategories rootExample).filter (fun c => c.mkdirOk)).length := by
  have h := c1_partition_amended "http://localhost/" "out" 5 rootExample
    ⟨assembleManifest "http://localhost/" 5 stExample, false⟩ (by decide)
  exact ⟨h.2.1, h.2.2⟩

/-- Claim C4 witness: the concrete `rootExample` run completes and writes
its manifest with a false `fail` flag. -/
theorem c4_manifest_always_written_witness :
    compilePool "http://localhost/" "out" 5 rootExample =
      .ok ⟨assembleManifest "http://localhost/" 5 stExample, manifestChecksFail stExample⟩ := by
  exact (c4_manifest_always_written "http://localhost/" "out" 5 rootExample stExample
    (by decide)).1

/-- Claim C8 witness: the cap facts instantiated on a concrete one-file
category and on the `rootExample` run. -/
theorem c8_category_cap_witness :
    ([("http://localhost/00/ab/cdEFGH1234.webp", (26 : Int))].length ≤ 65536 - 0) ∧
    (⟨"Default", 0, 1⟩ : CategoryMeta).length ≤ 65536 := by
  refine ⟨?_, ?_⟩
  · exact (c8_category_cap.1 "http://localhost/" "out" 0 "out/00"
      [⟨"$$KR_00_abcdEFGH1234_1A.png", true, true, true⟩] 0
      [("http://localhost/00/ab/cdEFGH1234.webp", 26)] false (by decide)).1
  · exact c8_category_cap.2.2 "http://localhost/" "out" 5 rootExample
      ⟨assembleManifest "http://localhost/" 5 stExample, false⟩ (by decide)
      ⟨"Default", 0, 1⟩ (by decide)

/-- Test for the uncaught-exception outcome of the inner loop body. -/
def isCrash (r : ItemOutcome) : Bool :=
  match r with
  | .crash _ => true
  | _ => false

/-- Two strings with the same characters are equal. -/
theorem stringExt (a b : String) (h : a.toList = b.toList) : a = b := by
  cases a
  cases b
  exact congrArg String.mk h

/-- Characters of an appended string. -/
theorem toList_append (a b : String) : (a ++ b).toList = a.toList ++ b.toList := by
  cases a
  cases b
  rfl

/-- Characters of a string built from a character list. -/
theorem toList_asString (l : List Char) : (l.asString).toList = l := rfl

/-- Relative path of a joined path with respect to its first component. -/
theorem relpathFrom_pathJoin (a b : String) : relpathFrom (pathJoin a b) a = b := by
  apply stringExt
  show ((pathJoin a b).toList.drop (a.toList.length + 1)).asString.toList = b.toList
  rw [toList_asString]
  have h1 : (pathJoin a b).toList = (a.toList ++ "/".toList) ++ b.toList := by
    simp [pathJoin, toList_append]
  rw [h1]
  have h2 : a.toList.length + 1 = (a.toList ++ "/".toList).length := by simp
  rw [h2, List.drop_left]

/-- Path joining is associative. -/
theorem pathJoin_assoc (a b c : String) :
    pathJoin (pathJoin a b) c = pathJoin a (pathJoin b c) := by
  apply stringExt
  simp [pathJoin, toList_append, List.append_assoc]

/-- The id token of a candidate filename (token at position 2). -/
def imgIdOf (f : String) : List Char := ((imgTokens f).get? 2).getD []

/-- An accepted image's URL is the base joined with
`<category-hex>/<first two id characters>/<rest of id>.webp`. -/
theorem c3_general (env : ItemEnv) (b o : String) (cn : Int) (f url : String) (attrib : Int)
    (h : processImage env b o cn (pathJoin o (formatHex02 cn)) f = .accept url attrib) :
    url = urljoinModel b
      (pathJoin (formatHex02 cn)
        (pathJoin ((imgIdOf f).take 2).asString
          (((imgIdOf f).drop 2).asString ++ "." ++ imageOutputFormat))) := by
  unfold processImage at h
  repeat' split at h
  any_goals exact ItemOutcome.noConfusion h
  injection h with hu ha
  subst hu
  rw [pathJoin_assoc, pathJoin_assoc, relpathFrom_pathJoin]
  simp_all [imgIdOf]

/-- Claim C3: for every accepted image the output subfolder is the first
two characters of the id (case preserved), the output filename is the
rest of the id with `.webp` appended, both inside the category folder
named in two-digit lowercase hex; in particular
`$$KR_00_abcdEFGH1234_1A.png` in `00 - Default` yields output path
`00/ab/cdEFGH1234.webp`, url `<base>00/ab/cdEFGH1234.webp`, attribute 26. -/
theorem c3_output_layout :
    (∀ (env : ItemEnv) (b o : String) (cn : Int) (f url : String) (attrib : Int),
      processImage env b o cn (pathJoin o (formatHex02 cn)) f = .accept url attrib →
      url = urljoinModel b
        (pathJoin (formatHex02 cn)
          (pathJoin ((imgIdOf f).take 2).asString
            (((imgIdOf f).drop 2).asString ++ "." ++ imageOutputFormat)))) ∧
    compilePool "http://localhost/" "out" 7
      [⟨"00 - Default", true, true, [⟨"$$KR_00_abcdEFGH1234_1A.png", true, true, true⟩]⟩] =
      .ok ⟨⟨7, ⟨"http://localhost/", [⟨"Default", 0, 1⟩], 1,
        ["http://localhost/00/ab/cdEFGH1234.webp"], [26]⟩⟩, false⟩ := by
  refine ⟨?_, by decide⟩
  intro env b o cn f url attrib h
  exact c3_general env b o cn f url attrib h

/-- Claim C3 witness: the universal part instantiated on the example file. -/
theorem c3_output_layout_witness :
    "http://localhost/00/ab/cdEFGH1234.webp" =
      urljoinModel "http://localhost/"
        (pathJoin (formatHex02 0)
          (pathJoin ((imgIdOf "$$KR_00_abcdEFGH1234_1A.png").take 2).asString
            (((imgIdOf "$$KR_00_abcdEFGH1234_1A.png").drop 2).asString ++ "." ++
              imageOutputFormat))) := by
  exact c3_output_layout.1 ⟨true, true⟩ "http://localhost/" "out" 0
    "$$KR_00_abcdEFGH1234_1A.png" "http://localhost/00/ab/cdEFGH1234.webp" 26 (by decide)

/-- Claim C7 (amended): tokenization truncates the name at its first dot
and splits on underscore, reading the tokens at positions 1 (category),
2 (id) and 3 (attribute); a stem yielding fewer than four tokens makes
token access raise an uncaught exception (aborting the run) instead of
being rejected, while tokens beyond the fourth are ignored. -/
theorem c7_token_positions (env : ItemEnv) (b o : String) (cn : Int) (p f : String)
    (hlt : (imgTokens f).length < 4) :
    isCrash (processImage env b o cn p f) = true := by
  have h3 : (imgTokens f).get? 3 = none := List.get?_eq_none.mpr (by omega)
  unfold processImage
  rw [h3]
  repeat' split
  all_goals first
  | rfl
  | simp_all

/-- Claim C7 witness: the amended statement instantiated on a two-token
candidate filename. -/
theorem c7_token_positions_witness :
    isCrash (processImage ⟨true, true⟩ "http://localhost/" "out" 0 "out/00" "$$KR_00.png") =
      true := by
  exact c7_token_positions ⟨true, true⟩ "http://localhost/" "out" 0 "out/00" "$$KR_00.png"
    (by decide)

/-! ## Converter Gateway: shell command construction (claim C9)

The conversion command is built as an f-string and run with
`subprocess.run(cmd, shell=True)`.  `shlex.quote` is embedded below from
its documented behaviour, and the receiving POSIX shell's
tokenization — an external collaborator, not part of this repository — is
modelled from the spec's description of the shell-like interface. -/

/-- Single-quote character. -/
def sqChar : Char := Char.ofNat 39

/-- Double-quote character. -/
def dqChar : Char := Char.ofNat 34

/-- Backslash character. -/
def bsChar : Char := Char.ofNat 92

/-- Backquote character. -/
def btChar : Char := Char.ofNat 96

/-- Characters `shlex.quote` leaves unquoted: the complement of CPython's
`_find_unsafe` pattern (everything except word characters and the
punctuation at-sign, percent, plus, equals, colon, comma, dot, slash,
dash) under `re.ASCII`: ASCII digits, letters, underscore (code 95), and
codes 64, 37, 43, 61, 58, 44, 46, 47, 45. -/
def isShlexSafe (c : Char) : Bool :=
  (48 ≤ c.toNat && c.toNat ≤ 57) || (65 ≤ c.toNat && c.toNat ≤ 90) ||
  (97 ≤ c.toNat && c.toNat ≤ 122) || c.toNat == 95 || c.toNat == 64 || c.toNat == 37 ||
  c.toNat == 43 || c.toNat == 61 || c.toNat == 58 || c.toNat == 44 || c.toNat == 46 ||
  c.toNat == 47 || c.toNat == 45

/-- Body transformation of `shlex.quote` for unsafe strings: each single
quote becomes the five characters quote, double-quote, quote,
double-quote, quote (`s.replace("'", "'\"'\"'")` in the library). -/
def shlexEscape : List Char → List Char
  | [] => []
  | c :: rest =>
    (if c = sqChar then [sqChar, dqChar, sqChar, dqChar, sqChar] else [c]) ++ shlexEscape rest

/-- Model of `shlex.quote`: empty strings become a pair of quotes, strings
of safe characters pass unchanged, anything else is wrapped in single
quotes with embedded quotes escaped. -/
def shlexQuote (s : List Char) : List Char :=
  if s.isEmpty then [sqChar, sqChar]
  else if s.all isShlexSafe then s
  else [sqChar] ++ shlexEscape s ++ [sqChar]

/-- Modelled from the spec: blank characters on which the shell-like
interface receiving the command splits words (space and tab). -/
def isShellSpace (c : Char) : Bool := c.toNat == 32 || c.toNat == 9

/-- Modelled from the spec: unquoted characters through which the
shell-like interface could run or expand something other than the single
intended command — operators, substitution, globbing, tilde and comment
characters (`; & | < > ( ) $ ` * ? [ ] ~ #`, newline, braces). -/
def isShellDanger (c : Char) : Bool :=
  c.toNat == 59 || c.toNat == 38 || c.toNat == 124 || c.toNat == 60 || c.toNat == 62 ||
  c.toNat == 40 || c.toNat == 41 || c.toNat == 36 || c.toNat == 96 || c.toNat == 42 ||
  c.toNat == 63 || c.toNat == 91 || c.toNat == 93 || c.toNat == 126 || c.toNat == 35 ||
  c.toNat == 10 || c.toNat == 123 || c.toNat == 125

/-- Lexer modes of the modelled shell tokenizer: between words, inside a
word, inside single or double quotes, and the backslash-pending variants. -/
inductive LexMode where
  | gap
  | word
  | single
  | double
  | wordEsc
  | doubleEsc

/-- Modelled from the spec: POSIX-style tokenization of the shell-like
interface that receives the conversion command.  Whitespace separates
words; single quotes protect everything up to the closing quote; double
quotes protect everything except `$` and backquote (backslash escapes
`\ " $ ` ` `` inside them); an unquoted backslash escapes the next
character; any unquoted dangerous character makes the tokenizer refuse
(`none`), so a `some` result is a plain argument vector with no operator,
substitution or globbing left. -/
def lexRun : LexMode → List Char → List Char → Option (List (List Char))
  | .gap, _, [] => some []
  | .word, acc, [] => some [acc]
  | .single, _, [] => none
  | .double, _, [] => none
  | .wordEsc, _, [] => none
  | .doubleEsc, _, [] => none
  | .gap, _, c :: rest =>
    if isShellSpace c then lexRun .gap [] rest
    else if c = sqChar then lexRun .single [] rest
    else if c = dqChar then lexRun .double [] rest
    else if c = bsChar then lexRun .wordEsc [] rest
    else if isShellDanger c then none
    else lexRun .word [c] rest
  | .word, acc, c :: rest =>
    if isShellSpace c then (lexRun .gap [] rest).map (fun ws => acc :: ws)
    else if c = sqChar then lexRun .single acc rest
    else if c = dqChar then lexRun .double acc rest
    else if c = bsChar then lexRun .wordEsc acc rest
    else if isShellDanger c then none
    else lexRun .word (acc ++ [c]) rest
  | .single, acc, c :: rest =>
    if c = sqChar then lexRun .word acc rest else lexRun .single (acc ++ [c]) rest
  | .double, acc, c :: rest =>
    if c = dqChar then lexRun .word acc rest
    else if c = bsChar then lexRun .doubleEsc acc rest
    else if c = '$' || c = btChar then none
    else lexRun .double (acc ++ [c]) rest
  | .wordEsc, acc, c :: rest => lexRun .word (acc ++ [c]) rest
  | .doubleEsc, acc, c :: rest =>
    if c = dqChar || c = bsChar || c = '$' || c = btChar then lexRun .double (acc ++ [c]) rest
    else lexRun .double (acc ++ [bsChar, c]) rest

/-- Words the modelled shell extracts from a command line. -/
def shellWords (s : List Char) : Option (List (List Char)) := lexRun .gap [] s

/-- Constant `IMAGE_MAGICK_COMMAND` from the source:
`-resize 512x512\> -quality 85`. -/
def imageMagickCommand : List Char := "-resize 512x512\\> -quality 85".toList

/-- The f-string on line 171 of the source:
`f'{magick_path} {shlex.quote(src_image_path)} {IMAGE_MAGICK_COMMAND} {shlex.quote(out_image_path)}'`. -/
def buildMagickCmd (magick src out : List Char) : List Char :=
  magick ++ [' '] ++ shlexQuote src ++ [' '] ++ imageMagickCommand ++ [' '] ++ shlexQuote out

/-- A safe character is neither blank nor quoting nor dangerous. -/
theorem isShlexSafe_facts (c : Char) (h : isShlexSafe c = true) :
    isShellSpace c = false ∧ c ≠ sqChar ∧ c ≠ dqChar ∧ c ≠ bsChar ∧ isShellDanger c = false := by
  refine ⟨?_, ?_, ?_, ?_, ?_⟩
  · rw [Bool.eq_false_iff]
    intro hs
    simp only [isShellSpace, Bool.or_eq_true, beq_iff_eq] at hs
    simp only [isShlexSafe, Bool.or_eq_true, Bool.and_eq_true, decide_eq_true_eq,
      beq_iff_eq] at h
    omega
  · intro he
    rw [he] at h
    exact absurd h (by decide)
  · intro he
    rw [he] at h
    exact absurd h (by decide)
  · intro he
    rw [he] at h
    exact absurd h (by decide)
  · rw [Bool.eq_false_iff]
    intro hs
    simp only [isShellDanger, Bool.or_eq_true, beq_iff_eq] at hs
    simp only [isShlexSafe, Bool.or_eq_true, Bool.and_eq_true, decide_eq_true_eq,
      beq_iff_eq] at h
    omega

/-- A blank ends the word in progress. -/
theorem lex_word_space (acc rest) :
    lexRun .word acc (' ' :: rest) = (lexRun .gap [] rest).map (fun ws => acc :: ws) := rfl

/-- An opening single quote between words. -/
theorem lex_gap_sq (a rest) : lexRun .gap a (sqChar :: rest) = lexRun .single [] rest := rfl

/-- A single quote closes single-quote mode. -/
theorem lex_single_close (acc rest) :
    lexRun .single acc (sqChar :: rest) = lexRun .word acc rest := rfl

/-- The five-character escape block restores single-quote mode having
contributed one literal quote. -/
theorem lex_escape_block (acc x) :
    lexRun .single acc (sqChar :: dqChar :: sqChar :: dqChar :: sqChar :: x) =
      lexRun .single (acc ++ [sqChar]) x := rfl

/-- Any other character inside single quotes is literal. -/
theorem lex_single_lit (c : Char) (hc : c ≠ sqChar) (acc x) :
    lexRun .single acc (c :: x) = lexRun .single (acc ++ [c]) x := by
  simp only [lexRun, if_neg hc]

/-- A safe character extends the word in progress. -/
theorem lex_word_char (c : Char) (hc : isShlexSafe c = true) (acc x) :
    lexRun .word acc (c :: x) = lexRun .word (acc ++ [c]) x := by
  obtain ⟨h1, h2, h3, h4, h5⟩ := isShlexSafe_facts c hc
  simp only [lexRun, h1, h2, h3, h4, h5, if_neg, if_false, Bool.false_eq_true]

/-- A safe character between words starts a word. -/
theorem lex_gap_char (c : Char) (hc : isShlexSafe c = true) (a x) :
    lexRun .gap a (c :: x) = lexRun .word [c] x := by
  obtain ⟨h1, h2, h3, h4, h5⟩ := isShlexSafe_facts c hc
  simp only [lexRun, h1, h2, h3, h4, h5, if_false, Bool.false_eq_true]

/-- A run of safe characters extends the word in progress. -/
theorem lex_word_run (cs : List Char) :
    ∀ (_h : cs.all isShlexSafe = true) (acc x : List Char),
      lexRun .word acc (cs ++ x) = lexRun .word (acc ++ cs) x := by
  induction cs with
  | nil => intro h acc x; simp
  | cons c cs' ih =>
    intro h acc x
    simp only [List.all_cons, Bool.and_eq_true] at h
    rw [List.cons_append, lex_word_char c h.1, ih h.2]
    simp

/-- The escaped body of a quoted string contributes exactly the original
characters, returning to word mode at the closing quote. -/
theorem lex_escape_run (cs : List Char) :
    ∀ (acc x : List Char),
      lexRun .single acc (shlexEscape cs ++ (sqChar :: x)) = lexRun .word (acc ++ cs) x := by
  induction cs with
  | nil =>
    intro acc x
    simp only [shlexEscape, List.nil_append, lex_single_close, List.append_nil]
  | cons c cs' ih =>
    intro acc x
    by_cases hc : c = sqChar
    · subst hc
      show lexRun .single acc
        ((sqChar :: dqChar :: sqChar :: dqChar :: sqChar :: shlexEscape cs') ++ (sqChar :: x)) =
        _
      rw [List.cons_append, List.cons_append, List.cons_append, List.cons_append,
        List.cons_append, lex_escape_block, ih]
      simp
    · have he : shlexEscape (c :: cs') = c :: shlexEscape cs' := by
        simp [shlexEscape, hc]
      rw [he, List.cons_append, lex_single_lit c hc, ih]
      simp

/-- A nonempty all-safe word followed by a blank is read as one word. -/
theorem lex_gap_safe_word (w : List Char) (hne : w ≠ []) (hsafe : w.all isShlexSafe = true)
    (x : List Char) :
    lexRun .gap [] (w ++ (' ' :: x)) = (lexRun .gap [] x).map (fun ws => w :: ws) := by
  cases w with
  | nil => exact absurd rfl hne
  | cons c cs =>
    simp only [List.all_cons, Bool.and_eq_true] at hsafe
    rw [List.cons_append, lex_gap_char c hsafe.1, lex_word_run cs hsafe.2, lex_word_space]
    rfl

/-- A nonempty all-safe word at the end of the line is read as one word. -/
theorem lex_gap_safe_word_end (w : List Char) (hne : w ≠ []) (hsafe : w.all isShlexSafe = true) :
    lexRun .gap [] w = some [w] := by
  cases w with
  | nil => exact absurd rfl hne
  | cons c cs =>
    simp only [List.all_cons, Bool.and_eq_true] at hsafe
    calc lexRun .gap [] (c :: cs) = lexRun .word [c] cs := lex_gap_char c hsafe.1 [] cs
      _ = lexRun .word [c] (cs ++ []) := by rw [List.append_nil]
      _ = lexRun .word ([c] ++ cs) [] := lex_word_run cs hsafe.2 [c] []
      _ = some [c :: cs] := rfl

/-- A `shlex.quote`-d string followed by a blank is read as exactly one
word carrying the original string, whatever it contains. -/
theorem lex_quote_word (s x : List Char) :
    lexRun .gap [] (shlexQuote s ++ (' ' :: x)) = (lexRun .gap [] x).map (fun ws => s :: ws) := by
  unfold shlexQuote
  by_cases hemp : s.isEmpty
  · rw [if_pos hemp]
    rw [List.isEmpty_iff.mp hemp]
    rfl
  · rw [if_neg hemp]
    by_cases hsafe : s.all isShlexSafe
    · rw [if_pos hsafe]
      exact lex_gap_safe_word s (fun h2 => hemp (List.isEmpty_iff.mpr h2)) hsafe x
    · rw [if_neg hsafe]
      have hsp : ([sqChar] ++ shlexEscape s ++ [sqChar]) ++ (' ' :: x) =
          sqChar :: (shlexEscape s ++ (sqChar :: (' ' :: x))) := by
        rw [List.append_assoc]
        rfl
      rw [hsp, lex_gap_sq, lex_escape_run, lex_word_space]
      simp

/-- A `shlex.quote`-d string at the end of the line is read as exactly one
word carrying the original string. -/
theorem lex_quote_word_end (s : List Char) :
    lexRun .gap [] (shlexQuote s) = some [s] := by
  unfold shlexQuote
  by_cases hemp : s.isEmpty
  · rw [if_pos hemp]
    rw [List.isEmpty_iff.mp hemp]
    rfl
  · rw [if_neg hemp]
    by_cases hsafe : s.all isShlexSafe
    · rw [if_pos hsafe]
      exact lex_gap_safe_word_end s (fun h2 => hemp (List.isEmpty_iff.mpr h2)) hsafe
    · rw [if_neg hsafe]
      have hsp : ([sqChar] ++ shlexEscape s ++ [sqChar]) =
          sqChar :: (shlexEscape s ++ (sqChar :: [])) := by
        rw [List.append_assoc]
        rfl
      rw [hsp, lex_gap_sq, lex_escape_run]
      rfl

/-- The word `512x512\>` of the fixed command reads as `512x512>`. -/
theorem lex_fixed_512 (x : List Char) :
    lexRun .gap [] ("512x512\\>".toList ++ (' ' :: x)) =
      (lexRun .gap [] x).map (fun ws => "512x512>".toList :: ws) := rfl

/-- The fixed `IMAGE_MAGICK_COMMAND` part reads as its four words. -/
theorem lex_fixed_cmd (x : List Char) :
    lexRun .gap [] (imageMagickCommand ++ (' ' :: x)) =
      (lexRun .gap [] x).map
        (fun ws =>
          "-resize".toList :: "512x512>".toList :: "-quality".toList :: "85".toList :: ws) := by
  show lexRun .gap []
      ("-resize".toList ++ (' ' :: ("512x512\\>".toList ++ (' ' ::
        ("-quality".toList ++ (' ' :: ("85".toList ++ (' ' :: x)))))))) = _
  rw [lex_gap_safe_word ("-resize".toList) (by decide) (by decide)]
  rw [lex_fixed_512]
  rw [lex_gap_safe_word ("-quality".toList) (by decide) (by decide)]
  rw [lex_gap_safe_word ("85".toList) (by decide) (by decide)]
  cases lexRun .gap [] x <;> rfl

/-- Claim C9: for every source and output path — shell metacharacters
included — the command built on line 171 tokenizes under the modelled
shell into exactly the conversion tool followed by the quoted source
path, the fixed resize and quality arguments, and the quoted output path:
one plain invocation, no unintended command, for any tool path that is a
plain word. -/
theorem c9_shell_quoting (magick src out : List Char)
    (h1 : magick ≠ []) (h2 : magick.all isShlexSafe = true) :
    shellWords (buildMagickCmd magick src out) =
      some [magick, src, "-resize".toList, "512x512>".toList, "-quality".toList,
        "85".toList, out] := by
  unfold shellWords buildMagickCmd
  simp only [List.append_assoc, List.cons_append, List.nil_append]
  rw [lex_gap_safe_word magick h1 h2]
  rw [lex_quote_word src]
  rw [lex_fixed_cmd]
  rw [lex_quote_word_end out]
  rfl

/-- Claim C9 witness: paths carrying blanks, a semicolon and a command
substitution attempt still come out as two literal argument words. -/
theorem c9_shell_quoting_witness :
    shellWords (buildMagickCmd ("magick".toList) ("a b;rm -rf x.png".toList)
        ("out $(x) put.webp".toList)) =
      some ["magick".toList, "a b;rm -rf x.png".toList, "-resize".toList, "512x512>".toList,
        "-quality".toList, "85".toList, "out $(x) put.webp".toList] := by
  exact c9_shell_quoting ("magick".toList) ("a b;rm -rf x.png".toList)
    ("out $(x) put.webp".toList) (by decide) (by decide)

/-- Claim C10 witness: the guard does not fire on a concrete file that
reaches token decoding. -/
theorem c10_none_guard_unreachable_witness :
    processImage ⟨true, true⟩ "http://localhost/" "out" 0 "out/00" "$$KR_00_abcd_1A.png" ≠
      ItemOutcome.skip .emptyTokens :=
  c10_none_guard_unreachable ⟨true, true⟩ "http://localhost/" "out" 0 "out/00"
    "$$KR_00_abcd_1A.png"
